import Mathlib

/-!
A verification development for the EduHireNexus moderation and
application-lifecycle workflow.

The repository carries two backends over the same logical schema:

* Firebase Cloud Functions (`functions/src/index.ts`, here `applyToJob`,
  `approveJob`, `approveEmployerUpgrade`, `expireJobs`,
  `updateApplicationStatus`) acting on Firestore collections;
* an Express server with an in-memory store (`server/storage.ts`,
  `MemStorage`) and its routes (`server/routes.ts`), plus a client-side
  Firestore service (`client/src/lib/firestore.ts`, here
  `clientSearchJobs`).

Both are embedded over one `Store` record holding the five collections
(users, companies, jobs, applications, auditLogs) as lists in insertion
order, which is the iteration order of both a Firestore collection scan
and a JS `Map`.

Conventions of the embedding:

* Timestamps are `Nat` milliseconds since the epoch (what `Date.getTime`
  compares).
* All status and role fields are `String`, exactly as in the source
  (Firestore documents and JS compare raw strings).
* JS string truthiness (`if (x)`) on an optional string is
  `strTruthy : Option String → Bool` (absent or empty is falsy).
* A Cloud Function call returns `Store × Except ErrCode α`: the store
  after the call together with either the value or the HttpsError code
  the caller observes.  Each handler wraps its body in
  `try ... catch (error) { throw HttpsError('internal', ...) }`, so every
  typed error raised inside the body reaches the caller as
  `ErrCode.internal`; mutations already committed before a later failure
  are kept (Firestore writes are not transactional here).
* Firestore `DocumentReference.update` on a missing document throws
  (modelled by checking presence first); `doc(path)` with an empty path
  throws; `.data()` on a missing snapshot is `undefined`, so a later
  plain property access throws while optional chaining (`?.`) does not.
* Document ids produced by `add()`/`randomUUID()` are supplied as
  explicit parameters (an id oracle) since they are external
  nondeterminism.
* Outbound email (`sendEmail`) catches its own failures and returns a
  boolean, so it never affects control flow; it is not modelled beyond
  the document reads its template performs.
* `Array.prototype.sort` with a numeric comparator is (since ES2019) a
  stable sort by the comparator's non-positive relation; any two stable
  sorts of the same list with respect to the same total preorder agree,
  so it is embedded as `List.insertionSort` over that relation.
-/

namespace EduHire

/-- Firebase `HttpsError` codes used by the sources, plus
`failedPrecondition` (gRPC `failed-precondition`), which the spec's error
taxonomy names but the code never raises. -/
inductive ErrCode where
  | unauthenticated
  | permissionDenied
  | notFound
  | alreadyExists
  | invalidArgument
  | failedPrecondition
  | internal
deriving Repr, DecidableEq

/-- A decoded Firebase auth token: `context.auth.token`.  `role` is the
custom claim string (`""` when no claim is set, which compares unequal to
every role name, as `undefined` does in JS). -/
structure AuthToken where
  uid : String
  emailVerified : Bool
  role : String
deriving Repr, DecidableEq

/-- `users` document (`shared/schema.ts` `UserSchema`). -/
structure User where
  id : String
  displayName : String
  email : String
  role : String
  emailVerified : Bool
  createdAt : Nat
  updatedAt : Nat
deriving Repr, DecidableEq

/-- `companies` document (`shared/schema.ts` `CompanySchema`). -/
structure Company where
  id : String
  name : String
  website : Option String
  instituteType : String
  hrEmail : String
  logoPath : Option String
  address : String
  phone : Option String
  proofDocs : List String
  ownerUid : String
  status : String
  createdAt : Nat
  updatedAt : Nat
deriving Repr, DecidableEq

/-- `location` object of a job. -/
structure Location where
  city : String
  state : String
  country : String
deriving Repr, DecidableEq

/-- `jobs` document (`shared/schema.ts` `JobSchema`). -/
structure Job where
  id : String
  title : String
  department : String
  level : String
  instituteType : String
  employmentType : String
  location : Location
  minSalary : Option Int
  maxSalary : Option Int
  currency : String
  qualifications : List String
  skills : List String
  responsibilities : List String
  description : String
  requirements : Option String
  lastDate : Nat
  applyMode : String
  applyUrl : Option String
  companyId : String
  posterUid : String
  status : String
  approvedBy : Option String
  approvedAt : Option Nat
  viewCount : Nat
  applicationCount : Nat
  createdAt : Nat
  updatedAt : Nat
deriving Repr, DecidableEq

/-- `applications` document (`shared/schema.ts` `ApplicationSchema`). -/
structure Application where
  id : String
  jobId : String
  applicantUid : String
  resumePath : String
  coverLetter : String
  status : String
  notes : Option String
  dedupeKey : String
  createdAt : Nat
  updatedAt : Nat
deriving Repr, DecidableEq

/-- `auditLogs` document (`shared/schema.ts` `AuditLogSchema`; the
generated document id is not observed anywhere and is omitted). -/
structure AuditEntry where
  actorUid : String
  action : String
  targetType : String
  targetId : String
  metadata : List (String × String)
  timestamp : Nat
deriving Repr, DecidableEq

/-- The five persisted collections, each in insertion order. -/
structure Store where
  users : List User := []
  companies : List Company := []
  jobs : List Job := []
  applications : List Application := []
  auditLogs : List AuditEntry := []
deriving Repr, DecidableEq

/-- Document lookup by id: Firestore `doc(id).get()` / JS `Map.get`. -/
def findUser (st : Store) (id : String) : Option User :=
  st.users.find? (fun u => u.id = id)

/-- Document lookup by id in `companies`. -/
def findCompany (st : Store) (id : String) : Option Company :=
  st.companies.find? (fun c => c.id = id)

/-- Document lookup by id in `jobs`. -/
def findJob (st : Store) (id : String) : Option Job :=
  st.jobs.find? (fun j => j.id = id)

/-- Document lookup by id in `applications`. -/
def findApplication (st : Store) (id : String) : Option Application :=
  st.applications.find? (fun a => a.id = id)

/-- JS truthiness of an optional string: `undefined` and `""` are falsy. -/
def strTruthy : Option String → Bool
  | none => false
  | some s => s ≠ ""

/-- `String.prototype.toLowerCase` (ASCII case mapping, as
`String.map Char.toLower`). -/
def jsLower (s : String) : String :=
  String.mk (s.data.map Char.toLower)

/-- Does `needle` occur at the head of `hay`? -/
def headMatches : List Char → List Char → Bool
  | [], _ => true
  | _ :: _, [] => false
  | c :: cs, d :: ds => c = d && headMatches cs ds

/-- Occurrence of `needle` anywhere in `hay`. -/
def listIncludes : List Char → List Char → Bool
  | [], needle => needle.isEmpty
  | hay@(_ :: t), needle => headMatches needle hay || listIncludes t needle

/-- `String.prototype.includes`. -/
def jsIncludes (hay needle : String) : Bool :=
  listIncludes hay.data needle.data

/-!
## Firebase Cloud Functions (`functions/src/index.ts`)

Each callable first runs its auth guard (outside the `try`, so its error
code reaches the caller unchanged), then its body; any error the body
raises is rethrown by the catch-all as `ErrCode.internal`.
-/

/-- `data` of the `applyToJob` callable (`{ jobId, resumePath,
coverLetter }`; a missing field is the empty string, which is falsy like
`undefined`). -/
structure ApplyInput where
  jobId : String
  resumePath : String
  coverLetter : String
deriving Repr, DecidableEq

/-- Cloud Function 6, `applyToJob` (seeker-only callable).  Checks, in
order: verified-seeker auth; presence of `jobId`/`resumePath`; job
exists; `status == 'approved'`; `lastDate` not in the past; no existing
application with the same `dedupeKey`.  On success it `add`s the
application (id `newAppId`), increments the job's `applicationCount`,
reads the applicant and company documents for the notification email
(a missing one crashes the handler after the writes), and appends an
audit entry.  Every error raised inside the `try` body is surfaced as
`internal` by the catch-all. -/
def applyToJob (st : Store) (ctx : Option AuthToken) (input : ApplyInput)
    (now : Nat) (newAppId : String) : Store × Except ErrCode String :=
  match ctx with
  | none => (st, .error .permissionDenied)
  | some tk =>
    if ¬ (tk.emailVerified = true ∧ tk.role = "seeker") then
      (st, .error .permissionDenied)
    else if input.jobId = "" ∨ input.resumePath = "" then
      (st, .error .invalidArgument)
    else
      match findJob st input.jobId with
      | none => (st, .error .internal)            -- throws not-found
      | some job =>
        if job.status ≠ "approved" then
          (st, .error .internal)                  -- throws permission-denied
        else if job.lastDate < now then
          (st, .error .internal)                  -- throws permission-denied
        else
          let dedupeKey := input.jobId ++ "_" ++ tk.uid
          if st.applications.any (fun a => a.dedupeKey = dedupeKey) then
            (st, .error .internal)                -- throws already-exists
          else
            let app : Application :=
              { id := newAppId, jobId := input.jobId, applicantUid := tk.uid
                resumePath := input.resumePath, coverLetter := input.coverLetter
                status := "submitted", notes := none, dedupeKey := dedupeKey
                createdAt := now, updatedAt := now }
            let st1 := { st with applications := st.applications ++ [app] }
            let st2 := { st1 with jobs := st1.jobs.map (fun j =>
              if j.id = input.jobId then
                { j with applicationCount := j.applicationCount + 1 }
              else j) }
            -- `applicantDoc.data()!.displayName` / `companyDoc.data()!.hrEmail`
            -- crash on a missing document; the writes above are kept.
            match findUser st2 tk.uid, findCompany st2 job.companyId with
            | some _, some _ =>
              let st3 := { st2 with auditLogs := st2.auditLogs ++
                [{ actorUid := tk.uid, action := "application_submitted"
                   targetType := "application", targetId := newAppId
                   metadata := [("jobId", input.jobId)], timestamp := now }] }
              (st3, .ok newAppId)
            | _, _ => (st2, .error .internal)

/-- Cloud Function 5, `approveJob` (admin-only callable).  Performs
`jobs.doc(jobId).update({ status: 'approved', approvedBy, approvedAt,
updatedAt })` with no check of the job's current status; the update
throws only when the document is missing.  The follow-up company and
user reads use `?.`-guarded data, so they cannot crash, but
`doc('')` on an empty `companyId`/`posterUid` path throws after the
write. -/
def approveJob (st : Store) (ctx : Option AuthToken) (jobId : String)
    (now : Nat) : Store × Except ErrCode Unit :=
  match ctx with
  | none => (st, .error .permissionDenied)
  | some tk =>
    if tk.role ≠ "admin" then (st, .error .permissionDenied)
    else if jobId = "" then (st, .error .invalidArgument)
    else
      match findJob st jobId with
      | none => (st, .error .internal)            -- update throws not-found
      | some job =>
        let st1 := { st with jobs := st.jobs.map (fun j =>
          if j.id = jobId then
            { j with status := "approved", approvedBy := some tk.uid
                     approvedAt := some now, updatedAt := now }
          else j) }
        if job.companyId = "" ∨ job.posterUid = "" then
          (st1, .error .internal)                 -- doc('') throws
        else
          let st2 := { st1 with auditLogs := st1.auditLogs ++
            [{ actorUid := tk.uid, action := "job_approved"
               targetType := "job", targetId := jobId
               metadata := [], timestamp := now }] }
          (st2, .ok ())

/-- Cloud Function 3, `approveEmployerUpgrade` (admin-only callable).
Performs `companies.doc(companyId).update({ status: 'approved' })` with
no check of the current status, sets the `employer` custom claim (the
external Auth service, modelled as succeeding), then updates the user
profile's role — a missing user profile makes that second update throw
after the company was already approved.  The follow-up reads are
`?.`-guarded. -/
def approveEmployerUpgrade (st : Store) (ctx : Option AuthToken)
    (uid companyId : String) (now : Nat) : Store × Except ErrCode Unit :=
  match ctx with
  | none => (st, .error .permissionDenied)
  | some tk =>
    if tk.role ≠ "admin" then (st, .error .permissionDenied)
    else if uid = "" ∨ companyId = "" then (st, .error .invalidArgument)
    else
      match findCompany st companyId with
      | none => (st, .error .internal)            -- update throws not-found
      | some _ =>
        let st1 : Store := { st with companies := st.companies.map (fun c =>
          if c.id = companyId then
            { c with status := "approved", updatedAt := now }
          else c) }
        match findUser st1 uid with
        | none => (st1, .error .internal)         -- user update throws
        | some _ =>
          let st2 : Store := { st1 with users := st1.users.map (fun u =>
            if u.id = uid then
              { u with role := "employer", updatedAt := now }
            else u) }
          let st3 : Store := { st2 with auditLogs := st2.auditLogs ++
            [{ actorUid := tk.uid, action := "company_approved"
               targetType := "company", targetId := companyId
               metadata := [("uid", uid)], timestamp := now }] }
          (st3, .ok ())

/-- Cloud Function 8, the scheduled `expireJobs` sweep (`every 24
hours`): batch-updates every job with `status == 'approved'` and
`lastDate < now` to `status: 'expired'`. -/
def expireJobs (st : Store) (now : Nat) : Store :=
  { st with jobs := st.jobs.map (fun j =>
      if j.status = "approved" ∧ j.lastDate < now then
        { j with status := "expired", updatedAt := now }
      else j) }

/-- `data` of the `updateApplicationStatus` callable. -/
structure StatusInput where
  applicationId : String
  status : String
  notes : String
deriving Repr, DecidableEq

/-- The status whitelist of `updateApplicationStatus`
(`const validStatuses = ['reviewed', 'shortlisted', 'rejected',
'offered']`). -/
def validStatuses : List String :=
  ["reviewed", "shortlisted", "rejected", "offered"]

/-- Cloud Function 9, `updateApplicationStatus` (employer/admin
callable).  Auth guard (`unauthenticated`), then the argument check
against `validStatuses` (`invalid-argument`) — both outside the `try`,
so these codes reach the caller; then, inside the `try`: application
lookup, the role/ownership permission check, the status/notes update,
the notification reads (a missing job document crashes after the write
when the applicant has an email address), and the audit entry. -/
def updateApplicationStatus (st : Store) (ctx : Option AuthToken)
    (input : StatusInput) (now : Nat) : Store × Except ErrCode Unit :=
  match ctx with
  | none => (st, .error .unauthenticated)
  | some tk =>
    if tk.emailVerified ≠ true then (st, .error .unauthenticated)
    else if input.applicationId = "" ∨ input.status = ""
        ∨ input.status ∉ validStatuses then
      (st, .error .invalidArgument)
    else
      match findApplication st input.applicationId with
      | none => (st, .error .internal)            -- throws not-found
      | some app =>
        -- permission check: admin passes; an employer must own the job
        let permitted : Store × Except ErrCode Unit :=
          let st1 := { st with applications := st.applications.map (fun a =>
            if a.id = input.applicationId then
              { a with status := input.status
                       notes := some input.notes, updatedAt := now }
            else a) }
          -- post-write reads: `doc('')` throws; `jobData.title` is read
          -- only under `if (applicantData?.email)`
          if app.jobId = "" ∨ app.applicantUid = "" then
            (st1, .error .internal)
          else
            match findUser st1 app.applicantUid with
            | some u =>
              if u.email ≠ "" ∧ (findJob st1 app.jobId).isNone then
                (st1, .error .internal)           -- jobData.title crashes
              else
                let st2 := { st1 with auditLogs := st1.auditLogs ++
                  [{ actorUid := tk.uid, action := "application_status_changed"
                     targetType := "application", targetId := input.applicationId
                     metadata := [("status", input.status),
                                  ("previousStatus", app.status)]
                     timestamp := now }] }
                (st2, .ok ())
            | none =>
              let st2 := { st1 with auditLogs := st1.auditLogs ++
                [{ actorUid := tk.uid, action := "application_status_changed"
                   targetType := "application", targetId := input.applicationId
                   metadata := [("status", input.status),
                                ("previousStatus", app.status)]
                   timestamp := now }] }
              (st2, .ok ())
        if tk.role = "admin" then permitted
        else if tk.role = "employer" then
          if app.jobId = "" then (st, .error .internal)  -- doc('') throws
          else
            match findJob st app.jobId with
            | some job =>
              if job.posterUid ≠ tk.uid then
                (st, .error .internal)            -- throws permission-denied
              else permitted
            | none => (st, .error .internal)      -- throws permission-denied
        else (st, .error .internal)               -- throws permission-denied

/-!
## In-memory server store (`server/storage.ts`, class `MemStorage`)

`Map.set` on a fresh key appends; on an existing key it replaces in
place.  The `update*` methods merge a `Partial<T>` into the current
record when the id is present and do nothing otherwise; either way the
returned promise resolves.  The patch structures below carry the fields
a `Partial<T>` caller may supply (the routes never patch `id` or
`createdAt`).
-/

/-- JS `Map.set` over an id-keyed list. -/
def mapSet (key : α → String) (l : List α) (x : α) : List α :=
  if l.any (fun y => key y = key x) then
    l.map (fun y => if key y = key x then x else y)
  else l ++ [x]

/-- `Partial<User>` as used by the routes. -/
structure UserPatch where
  displayName : Option String := none
  email : Option String := none
  role : Option String := none
  emailVerified : Option Bool := none
deriving Repr, DecidableEq

/-- `{ ...user, ...updates, updatedAt: new Date() }`. -/
def applyUserPatch (u : User) (p : UserPatch) (now : Nat) : User :=
  { u with displayName := p.displayName.getD u.displayName
           email := p.email.getD u.email
           role := p.role.getD u.role
           emailVerified := p.emailVerified.getD u.emailVerified
           updatedAt := now }

/-- `Partial<Company>` as used by the routes (`status` by the admin
moderation route, profile fields by the owner edit route). -/
structure CompanyPatch where
  name : Option String := none
  website : Option String := none
  instituteType : Option String := none
  hrEmail : Option String := none
  phone : Option String := none
  address : Option String := none
  status : Option String := none
deriving Repr, DecidableEq

/-- `{ ...company, ...updates, updatedAt: new Date() }`. -/
def applyCompanyPatch (c : Company) (p : CompanyPatch) (now : Nat) : Company :=
  { c with name := p.name.getD c.name
           website := if p.website.isSome then p.website else c.website
           instituteType := p.instituteType.getD c.instituteType
           hrEmail := p.hrEmail.getD c.hrEmail
           phone := if p.phone.isSome then p.phone else c.phone
           address := p.address.getD c.address
           status := p.status.getD c.status
           updatedAt := now }

/-- `Partial<Job>` as used by the routes (`status`/`approvedBy`/
`approvedAt` by the admin moderation route, the counters by the view
and application routes). -/
structure JobPatch where
  status : Option String := none
  approvedBy : Option String := none
  approvedAt : Option Nat := none
  viewCount : Option Nat := none
  applicationCount : Option Nat := none
deriving Repr, DecidableEq

/-- `{ ...job, ...updates, updatedAt: new Date() }`. -/
def applyJobPatch (j : Job) (p : JobPatch) (now : Nat) : Job :=
  { j with status := p.status.getD j.status
           approvedBy := if p.approvedBy.isSome then p.approvedBy else j.approvedBy
           approvedAt := if p.approvedAt.isSome then p.approvedAt else j.approvedAt
           viewCount := p.viewCount.getD j.viewCount
           applicationCount := p.applicationCount.getD j.applicationCount
           updatedAt := now }

namespace MemStorage

/-- `MemStorage.getJob`. -/
def getJob (st : Store) (id : String) : Option Job :=
  findJob st id

/-- The user-supplied part of a job record (`InsertJob` of
`shared/schema.ts`: `JobSchema` minus id, status, approval metadata,
counters and timestamps; the job-creation route adds `posterUid`). -/
structure InsertJob where
  title : String
  department : String
  level : String
  instituteType : String
  employmentType : String
  location : Location
  minSalary : Option Int
  maxSalary : Option Int
  currency : String
  qualifications : List String
  skills : List String
  responsibilities : List String
  description : String
  requirements : Option String
  lastDate : Nat
  applyMode : String
  applyUrl : Option String
  companyId : String
  posterUid : String
deriving Repr, DecidableEq

/-- `MemStorage.createJob`: spreads the insert record and sets the
generated id (`randomUUID()`, the `id` oracle parameter), `status:
'pending'`, `viewCount: 0`, `applicationCount: 0` and the timestamps. -/
def createJob (st : Store) (ins : InsertJob) (id : String) (now : Nat) :
    Store × Job :=
  let job : Job :=
    { id := id, title := ins.title, department := ins.department
      level := ins.level, instituteType := ins.instituteType
      employmentType := ins.employmentType, location := ins.location
      minSalary := ins.minSalary, maxSalary := ins.maxSalary
      currency := ins.currency, qualifications := ins.qualifications
      skills := ins.skills, responsibilities := ins.responsibilities
      description := ins.description, requirements := ins.requirements
      lastDate := ins.lastDate, applyMode := ins.applyMode
      applyUrl := ins.applyUrl, companyId := ins.companyId
      posterUid := ins.posterUid, status := "pending"
      approvedBy := none, approvedAt := none
      viewCount := 0, applicationCount := 0
      createdAt := now, updatedAt := now }
  ({ st with jobs := mapSet Job.id st.jobs job }, job)

/-- `MemStorage.updateUser`: merge when present, silently resolve
otherwise. -/
def updateUser (st : Store) (id : String) (p : UserPatch) (now : Nat) :
    Store × Except ErrCode Unit :=
  match findUser st id with
  | some u =>
    ({ st with users := mapSet User.id st.users (applyUserPatch u p now) },
     .ok ())
  | none => (st, .ok ())

/-- `MemStorage.updateCompany`: merge when present, silently resolve
otherwise. -/
def updateCompany (st : Store) (id : String) (p : CompanyPatch) (now : Nat) :
    Store × Except ErrCode Unit :=
  match findCompany st id with
  | some c =>
    let cs := mapSet Company.id st.companies (applyCompanyPatch c p now)
    ({ st with companies := cs }, .ok ())
  | none => (st, .ok ())

/-- `MemStorage.updateJob`: merge when present, silently resolve
otherwise. -/
def updateJob (st : Store) (id : String) (p : JobPatch) (now : Nat) :
    Store × Except ErrCode Unit :=
  match findJob st id with
  | some j =>
    ({ st with jobs := mapSet Job.id st.jobs (applyJobPatch j p now) }, .ok ())
  | none => (st, .ok ())

/-- `MemStorage.deleteUser`: removes the user, their companies
(by `ownerUid`), their posted jobs (by `posterUid`) and their submitted
applications (by `applicantUid`).  No `applicationCount` is adjusted and
applications to the removed jobs stay behind. -/
def deleteUser (st : Store) (id : String) : Store :=
  { st with
    users := st.users.filter (fun u => u.id ≠ id)
    companies := st.companies.filter (fun c => c.ownerUid ≠ id)
    jobs := st.jobs.filter (fun j => j.posterUid ≠ id)
    applications := st.applications.filter (fun a => a.applicantUid ≠ id) }

/-- `MemStorage.deleteJob`: removes the job and the applications
referencing it. -/
def deleteJob (st : Store) (id : String) : Store :=
  { st with
    jobs := st.jobs.filter (fun j => j.id ≠ id)
    applications := st.applications.filter (fun a => a.jobId ≠ id) }

/-- `MemStorage.getApplicationByDedupeKey`. -/
def getApplicationByDedupeKey (st : Store) (dedupeKey : String) :
    Option Application :=
  st.applications.find? (fun a => a.dedupeKey = dedupeKey)

/-- The user-supplied part of an application record (`InsertApplication`
of `shared/schema.ts`). -/
structure InsertApplication where
  jobId : String
  applicantUid : String
  resumePath : String
  coverLetter : Option String
  dedupeKey : String
deriving Repr, DecidableEq

/-- `MemStorage.createApplication`: spreads the insert record and sets
the generated id, `status: 'submitted'` and the timestamps. -/
def createApplication (st : Store) (ins : InsertApplication) (id : String)
    (now : Nat) : Store × Application :=
  let app : Application :=
    { id := id, jobId := ins.jobId, applicantUid := ins.applicantUid
      resumePath := ins.resumePath, coverLetter := ins.coverLetter.getD ""
      status := "submitted", notes := none, dedupeKey := ins.dedupeKey
      createdAt := now, updatedAt := now }
  ({ st with applications := mapSet Application.id st.applications app }, app)

end MemStorage

/-!
## Search/Filter Engine

Sort relations of the four `sortBy` modes.  A JS comparator
`(a, b) => k(a) - k(b)` induces the total preorder `k a ≤ k b`; the
ES2019 stable sort with respect to it is embedded as
`List.insertionSort` (also stable), since any two stable sorts of a list
with respect to one total preorder agree.
-/

/-- `sortBy: 'deadline'` — `a.lastDate - b.lastDate` ascending. -/
def deadlineLe (a b : Job) : Prop := a.lastDate ≤ b.lastDate

instance : DecidableRel deadlineLe := fun a b =>
  inferInstanceAs (Decidable (a.lastDate ≤ b.lastDate))

instance : IsTotal Job deadlineLe := ⟨fun a b => Nat.le_total a.lastDate b.lastDate⟩

instance : IsTrans Job deadlineLe := ⟨fun _ _ _ h h' => Nat.le_trans h h'⟩

/-- `sortBy: 'salary_high'` — `(b.maxSalary || 0) - (a.maxSalary || 0)`
descending. -/
def salaryHighLe (a b : Job) : Prop := b.maxSalary.getD 0 ≤ a.maxSalary.getD 0

instance : DecidableRel salaryHighLe := fun a b =>
  inferInstanceAs (Decidable (b.maxSalary.getD 0 ≤ a.maxSalary.getD 0))

/-- `sortBy: 'salary_low'` — `(a.minSalary || 0) - (b.minSalary || 0)`
ascending. -/
def salaryLowLe (a b : Job) : Prop := a.minSalary.getD 0 ≤ b.minSalary.getD 0

instance : DecidableRel salaryLowLe := fun a b =>
  inferInstanceAs (Decidable (a.minSalary.getD 0 ≤ b.minSalary.getD 0))

/-- default (`'newest'`) — `b.createdAt - a.createdAt`, newest first. -/
def newestLe (a b : Job) : Prop := b.createdAt ≤ a.createdAt

instance : DecidableRel newestLe := fun a b =>
  inferInstanceAs (Decidable (b.createdAt ≤ a.createdAt))

/-- The filter set handed to `MemStorage.searchJobs`
(`Partial<JobSearchFilters>`; the `GET /api/jobs` route passes raw query
strings, each possibly absent). -/
structure SearchFilters where
  query : Option String := none
  department : Option String := none
  instituteType : Option String := none
  level : Option String := none
  location : Option String := none
  employmentType : Option String := none
  postedWithin : Option String := none
  sortBy : Option String := none
deriving Repr, DecidableEq

/-- The `switch (filters.sortBy)` of `MemStorage.searchJobs`; anything
other than the three named cases (including absence) falls through to
`'newest'`. -/
def sortJobs (sortBy : Option String) (l : List Job) : List Job :=
  match sortBy with
  | some "deadline" => List.insertionSort deadlineLe l
  | some "salary_high" => List.insertionSort salaryHighLe l
  | some "salary_low" => List.insertionSort salaryLowLe l
  | _ => List.insertionSort newestLe l

/-- The filter-and-sort part of `MemStorage.searchJobs` (everything
before pagination): the implicit `status == 'approved'` restriction,
the truthiness-guarded field filters, the case-insensitive substring
text search, the `postedWithin` cutoff (`now − daysAgo·24h`; an
unrecognized value yields `daysAgo = 0`) and the sort. -/
def searchPipeline (st : Store) (f : SearchFilters) (now : Nat) : List Job :=
  let jobs0 := st.jobs.filter (fun j => j.status == "approved")
  let jobs1 := if strTruthy f.department then
      jobs0.filter (fun j => j.department == f.department.getD "")
    else jobs0
  let jobs2 := if strTruthy f.instituteType then
      jobs1.filter (fun j => j.instituteType == f.instituteType.getD "")
    else jobs1
  let jobs3 := if strTruthy f.level then
      jobs2.filter (fun j => j.level == f.level.getD "")
    else jobs2
  let jobs4 := if strTruthy f.location then
      let loc := jsLower (f.location.getD "")
      jobs3.filter (fun j =>
        jsIncludes (jsLower j.location.city) loc
          || jsIncludes (jsLower j.location.state) loc)
    else jobs3
  let jobs5 := if strTruthy f.employmentType then
      jobs4.filter (fun j => j.employmentType == f.employmentType.getD "")
    else jobs4
  let jobs6 := if strTruthy f.query then
      let q := jsLower (f.query.getD "")
      jobs5.filter (fun j =>
        jsIncludes (jsLower j.title) q
          || jsIncludes (jsLower j.description) q
          || j.qualifications.any (fun s => jsIncludes (jsLower s) q)
          || j.skills.any (fun s => jsIncludes (jsLower s) q))
    else jobs5
  let jobs7 := if strTruthy f.postedWithin ∧ f.postedWithin ≠ some "all" then
      let pw := f.postedWithin.getD ""
      let daysAgo : Nat :=
        if pw = "24h" then 1 else if pw = "7d" then 7
        else if pw = "30d" then 30 else 0
      -- `new Date(now − days·86400000)`; truncated subtraction matches a
      -- pre-epoch threshold, which every `createdAt : Nat` also passes
      let dateThreshold := now - daysAgo * 24 * 60 * 60 * 1000
      jobs6.filter (fun j => dateThreshold ≤ j.createdAt)
    else jobs6
  sortJobs f.sortBy jobs7

/-- `PaginatedResponse<Job>` (`shared/schema.ts`). -/
structure Paginated where
  items : List Job
  total : Nat
  page : Nat
  limit : Nat
  hasMore : Bool
deriving Repr, DecidableEq

namespace MemStorage

/-- `MemStorage.searchJobs`: the pipeline above plus pagination —
`slice(startIndex, endIndex)` (for the route's 1-indexed pages this is
drop-then-take), `total` the pre-slice length, and
`hasMore = endIndex < total`. -/
def searchJobs (st : Store) (f : SearchFilters) (page : Nat) (limit : Nat)
    (now : Nat) : Paginated :=
  let allJobs := searchPipeline st f now
  let total := allJobs.length
  let startIndex := (page - 1) * limit
  let endIndex := startIndex + limit
  { items := (allJobs.drop startIndex).take limit
    total := total
    page := page
    limit := limit
    hasMore := decide (endIndex < total) }

end MemStorage

/-- `GET /api/jobs` page parsing: `parseInt(req.query.page) || 1`
(absence, a non-numeric string and `0` are all falsy and give the
default). -/
def routePage (raw : Option Nat) : Nat :=
  match raw with
  | none => 1
  | some n => if n = 0 then 1 else n

/-- `GET /api/jobs` limit parsing:
`Math.min(parseInt(req.query.limit) || 20, 100)`. -/
def routeLimit (raw : Option Nat) : Nat :=
  min (match raw with
       | none => 20
       | some n => if n = 0 then 20 else n) 100

/-- The `GET /api/jobs` route handler: parse `page` and `limit`, then
`storage.searchJobs(filters, page, limit)`. -/
def routeSearchJobs (st : Store) (f : SearchFilters)
    (rawPage rawLimit : Option Nat) (now : Nat) : Paginated :=
  MemStorage.searchJobs st f (routePage rawPage) (routeLimit rawLimit) now

/-!
## Client-side Firestore search (`client/src/lib/firestore.ts`,
`searchJobs`)

The zod `JobSearchFilters` schema supplies the defaults
(`postedWithin: 'all'`, `sortBy: 'newest'`, `page: 1`, `limit: 20`) but
imposes no upper bound on `limit`.
-/

/-- A parsed `JobSearchFilters` value (zod defaults applied). -/
structure ClientFilters where
  query : Option String := none
  department : Option String := none
  instituteType : Option String := none
  level : Option String := none
  location : Option String := none
  employmentType : Option String := none
  postedWithin : String := "all"
  sortBy : String := "newest"
  page : Nat := 1
  limit : Nat := 20
deriving Repr, DecidableEq

/-- The `orderBy` pushed by the client `searchJobs` switch (which has no
default case, so an unknown `sortBy` pushes no ordering).  Firestore
drops documents that lack the `orderBy` field, which only the optional
salary fields can be. -/
def clientOrder (sortBy : String) (l : List Job) : List Job :=
  match sortBy with
  | "newest" => List.insertionSort newestLe l
  | "deadline" => List.insertionSort deadlineLe l
  | "salary_high" =>
    List.insertionSort salaryHighLe (l.filter (fun j => j.maxSalary.isSome))
  | "salary_low" =>
    List.insertionSort salaryLowLe (l.filter (fun j => j.minSalary.isSome))
  | _ => l

/-- The Firestore query the client `searchJobs` builds, before
`limit()`: `where('status','==','approved')`, the truthiness-guarded
equality filters (note `location` compares `location.city` for equality
here), the `postedWithin` cutoff, and the `orderBy`. -/
def clientPipeline (docs : List Job) (f : ClientFilters) (now : Nat) :
    List Job :=
  let d0 := docs.filter (fun j => j.status == "approved")
  let d1 := if strTruthy f.department then
      d0.filter (fun j => j.department == f.department.getD "")
    else d0
  let d2 := if strTruthy f.instituteType then
      d1.filter (fun j => j.instituteType == f.instituteType.getD "")
    else d1
  let d3 := if strTruthy f.level then
      d2.filter (fun j => j.level == f.level.getD "")
    else d2
  let d4 := if strTruthy f.employmentType then
      d3.filter (fun j => j.employmentType == f.employmentType.getD "")
    else d3
  let d5 := if strTruthy f.location then
      d4.filter (fun j => j.location.city == f.location.getD "")
    else d4
  let d6 := if f.postedWithin ≠ "all" then
      let daysAgo : Nat :=
        if f.postedWithin = "24h" then 1 else if f.postedWithin = "7d" then 7
        else if f.postedWithin = "30d" then 30 else 0
      let dateThreshold := now - daysAgo * 24 * 60 * 60 * 1000
      d5.filter (fun j => dateThreshold ≤ j.createdAt)
    else d5
  clientOrder f.sortBy d6

/-- The client `searchJobs`: fetch `limit(filters.limit)` documents of
the query (the computed `startIndex` is never applied — no
`startAfter`), run the client-side text filter, then report
`total = jobs.length` (the fetched page's length, "approximate" per the
source comment) and `hasMore = jobs.length === filters.limit`. -/
def clientSearchJobs (docs : List Job) (f : ClientFilters) (now : Nat) :
    Paginated :=
  let fetched := (clientPipeline docs f now).take f.limit
  let jobs := if strTruthy f.query then
      let q := jsLower (f.query.getD "")
      fetched.filter (fun j =>
        jsIncludes (jsLower j.title) q
          || jsIncludes (jsLower j.description) q
          || j.qualifications.any (fun s => jsIncludes (jsLower s) q)
          || j.skills.any (fun s => jsIncludes (jsLower s) q))
    else fetched
  { items := jobs
    total := jobs.length
    page := f.page
    limit := f.limit
    hasMore := decide (jobs.length = f.limit) }

/-!
## Invariants
-/

instance {ε α : Type} [DecidableEq ε] [DecidableEq α] :
    DecidableEq (Except ε α) := fun x y =>
  match x, y with
  | .ok a, .ok b =>
    if h : a = b then .isTrue (by rw [h]) else .isFalse (by simp [h])
  | .error e, .error e' =>
    if h : e = e' then .isTrue (by rw [h]) else .isFalse (by simp [h])
  | .ok _, .error _ => .isFalse (by simp)
  | .error _, .ok _ => .isFalse (by simp)

/-- The `applicationCount` bookkeeping invariant: every job's counter
equals the number of stored applications referencing it. -/
def countsOk (st : Store) : Prop :=
  ∀ j ∈ st.jobs, j.applicationCount =
    (st.applications.filter (fun a => a.jobId == j.id)).length

instance (st : Store) : Decidable (countsOk st) :=
  inferInstanceAs (Decidable (∀ j ∈ st.jobs, j.applicationCount =
    (st.applications.filter (fun a => a.jobId == j.id)).length))

/-- The dedupe invariant: no two distinct stored applications share a
`dedupeKey`. -/
def dedupeUnique (st : Store) : Prop :=
  st.applications.Pairwise (fun a b => a.dedupeKey ≠ b.dedupeKey)

instance (st : Store) : Decidable (dedupeUnique st) :=
  inferInstanceAs (Decidable
    (st.applications.Pairwise (fun a b : Application => a.dedupeKey ≠ b.dedupeKey)))

/-!
## Concrete fixtures (used by counterexamples and witnesses)
-/

/-- An admin auth token. -/
def adminTk : AuthToken := { uid := "admin1", emailVerified := true, role := "admin" }

/-- A verified seeker auth token. -/
def seekerTk : AuthToken := { uid := "s1", emailVerified := true, role := "seeker" }

/-- A verified employer auth token. -/
def employerTk : AuthToken := { uid := "e1", emailVerified := true, role := "employer" }

/-- A seeker user profile. -/
def userS1 : User :=
  { id := "s1", displayName := "Seeker One", email := "s1@example.com"
    role := "seeker", emailVerified := true, createdAt := 1, updatedAt := 1 }

/-- An employer user profile. -/
def userE1 : User :=
  { id := "e1", displayName := "Employer One", email := "e1@example.com"
    role := "employer", emailVerified := true, createdAt := 1, updatedAt := 1 }

/-- An approved company owned by `e1`. -/
def companyC1 : Company :=
  { id := "c1", name := "IIT Bombay", website := none, instituteType := "IIT"
    hrEmail := "hr@iitb.example.com", logoPath := none
    address := "Powai, Mumbai 400076", phone := none, proofDocs := []
    ownerUid := "e1", status := "approved", createdAt := 1, updatedAt := 1 }

/-- A rejected company owned by `e1`. -/
def companyC2 : Company :=
  { companyC1 with id := "c2", status := "rejected" }

/-- An approved Mathematics job (deadline 2000) posted by `e1` under
`c1`, with one recorded application. -/
def jobJ1 : Job :=
  { id := "j1", title := "Assistant Professor of Mathematics"
    department := "Mathematics", level := "Assistant Professor"
    instituteType := "IIT", employmentType := "Full-time"
    location := { city := "Mumbai", state := "Maharashtra", country := "India" }
    minSalary := some 100000, maxSalary := some 200000, currency := "INR"
    qualifications := ["PhD in Mathematics"], skills := ["Algebra"]
    responsibilities := ["Teaching"], description := "Tenure-track opening."
    requirements := none, lastDate := 2000, applyMode := "internal"
    applyUrl := none, companyId := "c1", posterUid := "e1"
    status := "approved", approvedBy := some "admin1", approvedAt := some 10
    viewCount := 0, applicationCount := 1, createdAt := 5, updatedAt := 5 }

/-- An approved job whose deadline (500) is already in the past at
`now = 1000`. -/
def jobJ2 : Job :=
  { jobJ1 with id := "j2", lastDate := 500, applicationCount := 0 }

/-- A rejected job. -/
def jobJ3 : Job :=
  { jobJ1 with id := "j3", status := "rejected", applicationCount := 0 }

/-- The application `s1` already submitted to `j1`. -/
def appA1 : Application :=
  { id := "a1", jobId := "j1", applicantUid := "s1"
    resumePath := "resumes/s1.pdf", coverLetter := "", status := "submitted"
    notes := none, dedupeKey := "j1_s1", createdAt := 500, updatedAt := 500 }

/-- The store of the duplicate-application scenario: `s1` has already
applied to the approved job `j1` (whose counter is 1). -/
def stDup : Store :=
  { users := [userS1, userE1], companies := [companyC1]
    jobs := [jobJ1], applications := [appA1] }

/-- A store holding only the expired-deadline job `j2`. -/
def stPast : Store :=
  { users := [userS1, userE1], companies := [companyC1], jobs := [jobJ2] }

/-- A store holding only the rejected job `j3`. -/
def stRejectedJob : Store :=
  { users := [userE1], companies := [companyC1], jobs := [jobJ3] }

/-- A store holding the rejected company `c2` and its owner. -/
def stRejectedCo : Store :=
  { users := [userE1], companies := [companyC2] }

/-- The empty store. -/
def stEmpty : Store := {}

/-- The `i`-th of a family of approved Mathematics jobs with pairwise
distinct ids, deadlines `10000 + i` and creation times `100 + i`. -/
def mathJob (i : Nat) : Job :=
  { jobJ1 with id := "mj" ++ toString i, lastDate := 10000 + i
               createdAt := 100 + i, applicationCount := 0 }

/-- A store of 41 approved Mathematics jobs — one more than two pages
of 20. -/
def st41 : Store := { jobs := (List.range 41).map mathJob }

/-- The C6 filter set: department Mathematics, sorted by deadline. -/
def f6 : SearchFilters := { department := some "Mathematics", sortBy := some "deadline" }

/-- 20 approved jobs, as a client-side Firestore document list. -/
def docs20 : List Job := (List.range 20).map mathJob

/-- 30 approved jobs, as a client-side Firestore document list. -/
def docs30 : List Job := (List.range 30).map mathJob

/-- 101 approved jobs, as a client-side Firestore document list. -/
def docs101 : List Job := (List.range 101).map mathJob

/-!
## Helper lemmas
-/

theorem find?_mapIf {α : Type} (key : α → String) (f : α → α)
    (hf : ∀ x, key (f x) = key x) (l : List α) (id : String) (a : α)
    (h : l.find? (fun x => key x = id) = some a) :
    (l.map (fun x => if key x = id then f x else x)).find?
      (fun x => key x = id) = some (f a) := by
  have hpg : ((fun x => decide (key x = id)) ∘
      (fun x => if key x = id then f x else x))
      = fun x => decide (key x = id) := by
    funext x
    by_cases hx : key x = id
    · simp [Function.comp, hx, hf]
    · simp [Function.comp, hx]
  have ha : key a = id := by
    have := List.find?_some h
    simpa using this
  rw [List.find?_map, hpg, h]
  simp [ha]

theorem find?_mapSet {α : Type} (key : α → String) (l : List α) (x : α) :
    (mapSet key l x).find? (fun y => key y = key x) = some x := by
  unfold mapSet
  by_cases h : (l.any (fun y => key y = key x)) = true
  · rw [if_pos h]
    have hpg : ((fun y => decide (key y = key x)) ∘
        (fun y => if key y = key x then x else y))
        = fun y => decide (key y = key x) := by
      funext y
      by_cases hy : key y = key x
      · simp [Function.comp, hy]
      · simp [Function.comp, hy]
    rw [List.find?_map, hpg]
    obtain ⟨y, hy, py⟩ := List.any_eq_true.mp h
    have hsome : (l.find? (fun y => key y = key x)).isSome := by
      rw [List.find?_isSome]
      exact ⟨y, hy, py⟩
    obtain ⟨a, hfa⟩ := Option.isSome_iff_exists.mp hsome
    have hka : key a = key x := by simpa using List.find?_some hfa
    rw [hfa]
    simp [hka]
  · rw [if_neg h, List.find?_append]
    have hn : l.find? (fun y => key y = key x) = none := by
      rw [List.find?_eq_none]
      intro y hy
      have := List.any_eq_false.mp (Bool.not_eq_true _ ▸ h) y hy
      simpa using this
    simp [hn, List.find?]

/-!
## Claim theorems
-/

/-- C8: a `MemStorage` update on an id absent from the collection does
NOT return or throw NotFound: at the concrete input it resolves
successfully (`ok ()`), refuting the claim as stated; the store is
unchanged. -/
theorem updateJob_missing_id_counterexample :
    (MemStorage.updateJob stEmpty "j404" {} 7).2 ≠ Except.error ErrCode.notFound
    ∧ (MemStorage.updateJob stEmpty "j404" {} 7).2 = Except.ok ()
    ∧ (MemStorage.updateJob stEmpty "j404" {} 7).1 = stEmpty := by decide

/-- C8 (amended): `MemStorage.updateUser` / `updateCompany` /
`updateJob` on an id absent from the collection are silent no-ops: the
promise resolves (no NotFound or any other error) and the store is
unchanged. -/
theorem memStorage_update_missing_id_noop :
    (∀ st id p now, findUser st id = none →
       MemStorage.updateUser st id p now = (st, Except.ok ()))
    ∧ (∀ st id p now, findCompany st id = none →
       MemStorage.updateCompany st id p now = (st, Except.ok ()))
    ∧ (∀ st id p now, findJob st id = none →
       MemStorage.updateJob st id p now = (st, Except.ok ())) := by
  refine ⟨?_, ?_, ?_⟩ <;> intro st id p now h
  · simp [MemStorage.updateUser, h]
  · simp [MemStorage.updateCompany, h]
  · simp [MemStorage.updateJob, h]

/-- C8 witness: the amended statement applied to the empty store. -/
theorem memStorage_update_missing_id_noop_witness :
    MemStorage.updateUser stEmpty "u404" {} 7 = (stEmpty, Except.ok ())
    ∧ MemStorage.updateCompany stEmpty "c404" {} 7 = (stEmpty, Except.ok ())
    ∧ MemStorage.updateJob stEmpty "j405" {} 7 = (stEmpty, Except.ok ()) :=
  ⟨memStorage_update_missing_id_noop.1 stEmpty "u404" {} 7 (by decide),
   memStorage_update_missing_id_noop.2.1 stEmpty "c404" {} 7 (by decide),
   memStorage_update_missing_id_noop.2.2 stEmpty "j405" {} 7 (by decide)⟩

/-- C9: `createJob` followed by `getJob` on the generated id returns the
created record; its user-supplied fields equal the insert input and it
starts with `status = 'pending'`, `viewCount = 0`,
`applicationCount = 0`. -/
theorem createJob_getJob_roundTrip (st : Store) (ins : MemStorage.InsertJob)
    (id : String) (now : Nat) :
    MemStorage.getJob (MemStorage.createJob st ins id now).1 id =
      some (MemStorage.createJob st ins id now).2
    ∧ (MemStorage.createJob st ins id now).2.title = ins.title
    ∧ (MemStorage.createJob st ins id now).2.department = ins.department
    ∧ (MemStorage.createJob st ins id now).2.level = ins.level
    ∧ (MemStorage.createJob st ins id now).2.instituteType = ins.instituteType
    ∧ (MemStorage.createJob st ins id now).2.employmentType = ins.employmentType
    ∧ (MemStorage.createJob st ins id now).2.location = ins.location
    ∧ (MemStorage.createJob st ins id now).2.minSalary = ins.minSalary
    ∧ (MemStorage.createJob st ins id now).2.maxSalary = ins.maxSalary
    ∧ (MemStorage.createJob st ins id now).2.currency = ins.currency
    ∧ (MemStorage.createJob st ins id now).2.qualifications = ins.qualifications
    ∧ (MemStorage.createJob st ins id now).2.skills = ins.skills
    ∧ (MemStorage.createJob st ins id now).2.responsibilities = ins.responsibilities
    ∧ (MemStorage.createJob st ins id now).2.description = ins.description
    ∧ (MemStorage.createJob st ins id now).2.requirements = ins.requirements
    ∧ (MemStorage.createJob st ins id now).2.lastDate = ins.lastDate
    ∧ (MemStorage.createJob st ins id now).2.applyMode = ins.applyMode
    ∧ (MemStorage.createJob st ins id now).2.applyUrl = ins.applyUrl
    ∧ (MemStorage.createJob st ins id now).2.companyId = ins.companyId
    ∧ (MemStorage.createJob st ins id now).2.posterUid = ins.posterUid
    ∧ (MemStorage.createJob st ins id now).2.id = id
    ∧ (MemStorage.createJob st ins id now).2.status = "pending"
    ∧ (MemStorage.createJob st ins id now).2.viewCount = 0
    ∧ (MemStorage.createJob st ins id now).2.applicationCount = 0 := by
  refine ⟨?_, rfl, rfl, rfl, rfl, rfl, rfl, rfl, rfl, rfl, rfl, rfl, rfl,
    rfl, rfl, rfl, rfl, rfl, rfl, rfl, rfl, rfl, rfl, rfl⟩
  exact find?_mapSet Job.id st.jobs (MemStorage.createJob st ins id now).2

/-- Reduction: an unverified caller is turned away with
Unauthenticated. -/
theorem uas_unverified (st : Store) (tk : AuthToken) (input : StatusInput)
    (now : Nat) (hv : tk.emailVerified = false) :
    updateApplicationStatus st (some tk) input now =
      (st, Except.error ErrCode.unauthenticated) := by
  simp [updateApplicationStatus, hv]

/-- Reduction: a verified caller requesting a non-whitelisted status is
turned away with InvalidArgument before anything else happens. -/
theorem uas_invalid (st : Store) (tk : AuthToken) (input : StatusInput)
    (now : Nat) (hver : tk.emailVerified = true)
    (hst : input.status ∉ validStatuses) :
    updateApplicationStatus st (some tk) input now =
      (st, Except.error ErrCode.invalidArgument) := by
  have harg : input.applicationId = "" ∨ input.status = ""
      ∨ input.status ∉ validStatuses := Or.inr (Or.inr hst)
  have hver' : ¬ tk.emailVerified ≠ true := by simp [hver]
  simp only [updateApplicationStatus, if_neg hver', if_pos harg]

/-- C10: `updateApplicationStatus` accepts a requested status only from
`{reviewed, shortlisted, rejected, offered}`; any other value —
`withdrawn`, `submitted`, or anything else — fails with InvalidArgument
before the permission check and before any mutation (for every verified
caller, whatever their role), a successful call implies the status was
whitelisted, and no application ever ends up `withdrawn` through this
operation. -/
theorem updateApplicationStatus_whitelist :
    (∀ st tk input now, tk.emailVerified = true →
       input.status ∉ validStatuses →
       updateApplicationStatus st (some tk) input now =
         (st, Except.error ErrCode.invalidArgument))
    ∧ (∀ st ctx input now,
       (updateApplicationStatus st ctx input now).2 = Except.ok () →
       input.status ∈ validStatuses)
    ∧ (∀ st ctx input now a,
       a ∈ (updateApplicationStatus st ctx input now).1.applications →
       a.status = "withdrawn" → a ∈ st.applications) := by
  refine ⟨fun st tk input now hver hst => uas_invalid st tk input now hver hst,
    ?_, ?_⟩
  · intro st ctx input now hok
    by_contra hmem
    cases ctx with
    | none => simp [updateApplicationStatus] at hok
    | some tk =>
      cases hv : tk.emailVerified with
      | false => rw [uas_unverified st tk input now hv] at hok; simp at hok
      | true => rw [uas_invalid st tk input now hv hmem] at hok; simp at hok
  · intro st ctx input now a hmem hw
    cases ctx with
    | none => exact hmem
    | some tk =>
      simp only [updateApplicationStatus] at hmem
      by_cases hv : tk.emailVerified ≠ true
      · rw [if_pos hv] at hmem; exact hmem
      · rw [if_neg hv] at hmem
        by_cases harg : input.applicationId = "" ∨ input.status = ""
            ∨ input.status ∉ validStatuses
        · rw [if_pos harg] at hmem; exact hmem
        · rw [if_neg harg] at hmem
          push_neg at harg
          obtain ⟨-, -, hvalid⟩ := harg
          have hwne : input.status ≠ "withdrawn" := by
            intro hcon
            rw [hcon] at hvalid
            exact absurd hvalid (by decide)
          -- every remaining branch keeps `st.applications` or maps the
          -- validated update over it
          have hmap : ∀ st1 : Store,
              st1.applications = st.applications.map (fun x =>
                if x.id = input.applicationId then
                  { x with status := input.status, notes := some input.notes
                           updatedAt := now }
                else x) →
              a ∈ st1.applications → a ∈ st.applications := by
            intro st1 heq hmem1
            rw [heq] at hmem1
            obtain ⟨a0, ha0, haeq⟩ := List.mem_map.mp hmem1
            by_cases hid : a0.id = input.applicationId
            · rw [if_pos hid] at haeq
              exfalso
              apply hwne
              rw [← hw, ← haeq]
            · rw [if_neg hid] at haeq
              rw [← haeq]
              exact ha0
          cases hfind : findApplication st input.applicationId with
          | none => rw [hfind] at hmem; exact hmem
          | some app =>
            rw [hfind] at hmem
            dsimp only at hmem
            repeat' split at hmem
            all_goals first
              | exact hmem
              | exact hmap _ rfl hmem

/-- C10 witness: a verified employer requesting `withdrawn` on the
stored application is rejected with InvalidArgument and the store is
untouched. -/
theorem updateApplicationStatus_whitelist_witness :
    updateApplicationStatus stDup (some employerTk)
      { applicationId := "a1", status := "withdrawn", notes := "" } 9 =
      (stDup, Except.error ErrCode.invalidArgument) :=
  updateApplicationStatus_whitelist.1 stDup employerTk
    { applicationId := "a1", status := "withdrawn", notes := "" } 9
    (by decide) (by decide)

/-- C2 counterexample: applying to the approved job `j2` whose deadline
(500) is strictly before `now = 1000` does NOT surface
PreconditionFailed — the handler raises permission-denied internally and
the catch-all rethrows Internal; no application is created. -/
theorem applyToJob_pastDeadline_counterexample :
    (applyToJob stPast (some seekerTk)
        { jobId := "j2", resumePath := "resumes/s1.pdf", coverLetter := "" }
        1000 "a9").2 ≠ Except.error ErrCode.failedPrecondition
    ∧ (applyToJob stPast (some seekerTk)
        { jobId := "j2", resumePath := "resumes/s1.pdf", coverLetter := "" }
        1000 "a9") = (stPast, Except.error ErrCode.internal) := by decide

/-- C2 (amended): for every applyToJob call by a verified seeker on an
existing job whose `lastDate` is strictly before the current time, the
call fails — with Internal surfaced to the caller (the internal
permission-denied of the status or deadline check is swallowed by the
catch-all) — and the store, in particular the application collection, is
unchanged, regardless of the job's status. -/
theorem applyToJob_pastDeadline_fails (st : Store) (tk : AuthToken)
    (input : ApplyInput) (now : Nat) (newAppId : String) (j : Job)
    (hv : tk.emailVerified = true) (hr : tk.role = "seeker")
    (hj : input.jobId ≠ "") (hrp : input.resumePath ≠ "")
    (hfind : findJob st input.jobId = some j) (hlate : j.lastDate < now) :
    applyToJob st (some tk) input now newAppId =
      (st, Except.error ErrCode.internal) := by
  have hauth : ¬ ¬ (tk.emailVerified = true ∧ tk.role = "seeker") := by
    simp [hv, hr]
  have harg : ¬ (input.jobId = "" ∨ input.resumePath = "") := by
    simp [hj, hrp]
  simp only [applyToJob, if_neg hauth, if_neg harg, hfind]
  by_cases hs : j.status ≠ "approved"
  · rw [if_pos hs]
  · rw [if_neg hs, if_pos hlate]

/-- C2 witness: the amended statement applied to the expired-deadline
store. -/
theorem applyToJob_pastDeadline_fails_witness :
    applyToJob stPast (some seekerTk)
      { jobId := "j2", resumePath := "resumes/s1.pdf", coverLetter := "" }
      1000 "a8" = (stPast, Except.error ErrCode.internal) :=
  applyToJob_pastDeadline_fails stPast seekerTk
    { jobId := "j2", resumePath := "resumes/s1.pdf", coverLetter := "" }
    1000 "a8" jobJ2 (by decide) (by decide) (by decide) (by decide)
    (by decide) (by decide)

/-- C1 counterexample: a second application by `s1` to `j1` (dedupeKey
`j1_s1` already stored) is refused and mutates nothing, but the caller
receives Internal — the already-exists raised by the duplicate check is
swallowed by the catch-all — not AlreadyExists. -/
theorem applyToJob_duplicate_counterexample :
    (applyToJob stDup (some seekerTk)
        { jobId := "j1", resumePath := "resumes/s1.pdf", coverLetter := "" }
        1000 "a2").2 ≠ Except.error ErrCode.alreadyExists
    ∧ (applyToJob stDup (some seekerTk)
        { jobId := "j1", resumePath := "resumes/s1.pdf", coverLetter := "" }
        1000 "a2") = (stDup, Except.error ErrCode.internal) := by decide

/-- C1 (amended): when a verified seeker applies and an application with
the same dedupeKey (`jobId + '_' + applicantUid`) already exists, no new
application is created and the job's applicationCount is unchanged (the
whole store is returned as-is), and the caller receives Internal (the
AlreadyExists raised by the duplicate check is swallowed by the
catch-all rethrow); moreover every applyToJob call preserves
dedupeKey-uniqueness of the application collection, so no two distinct
applications ever share a dedupeKey. -/
theorem applyToJob_duplicate_rejected :
    (∀ st tk input now newAppId,
      tk.emailVerified = true → tk.role = "seeker" →
      input.jobId ≠ "" → input.resumePath ≠ "" →
      (∃ a ∈ st.applications, a.dedupeKey = input.jobId ++ "_" ++ tk.uid) →
      applyToJob st (some tk) input now newAppId =
        (st, Except.error ErrCode.internal))
    ∧ (∀ st ctx input now newAppId, dedupeUnique st →
      dedupeUnique (applyToJob st ctx input now newAppId).1) := by
  constructor
  · intro st tk input now newAppId hv hr hj hrp hdup
    have hauth : ¬ ¬ (tk.emailVerified = true ∧ tk.role = "seeker") := by
      simp [hv, hr]
    have harg : ¬ (input.jobId = "" ∨ input.resumePath = "") := by
      simp [hj, hrp]
    simp only [applyToJob, if_neg hauth, if_neg harg]
    cases hfind : findJob st input.jobId with
    | none => rfl
    | some j =>
      dsimp only
      by_cases hs : j.status ≠ "approved"
      · rw [if_pos hs]
      · rw [if_neg hs]
        by_cases hlate : j.lastDate < now
        · rw [if_pos hlate]
        · rw [if_neg hlate]
          obtain ⟨a, ha, hk⟩ := hdup
          have hany : (st.applications.any
              (fun a => a.dedupeKey = input.jobId ++ "_" ++ tk.uid)) = true :=
            List.any_eq_true.mpr ⟨a, ha, by simp [hk]⟩
          rw [if_pos hany]
  · intro st ctx input now newAppId huniq
    cases ctx with
    | none => exact huniq
    | some tk =>
      simp only [applyToJob]
      by_cases hauth : ¬ (tk.emailVerified = true ∧ tk.role = "seeker")
      · rw [if_pos hauth]; exact huniq
      · rw [if_neg hauth]
        by_cases harg : input.jobId = "" ∨ input.resumePath = ""
        · rw [if_pos harg]; exact huniq
        · rw [if_neg harg]
          cases hfind : findJob st input.jobId with
          | none => exact huniq
          | some j =>
            dsimp only
            by_cases hs : j.status ≠ "approved"
            · rw [if_pos hs]; exact huniq
            · rw [if_neg hs]
              by_cases hlate : j.lastDate < now
              · rw [if_pos hlate]; exact huniq
              · rw [if_neg hlate]
                by_cases hany : (st.applications.any
                    (fun a => a.dedupeKey = input.jobId ++ "_" ++ tk.uid)) = true
                · rw [if_pos hany]; exact huniq
                · rw [if_neg hany]
                  have hnew : ∀ b ∈ st.applications,
                      b.dedupeKey ≠ input.jobId ++ "_" ++ tk.uid := by
                    intro b hb
                    have := List.any_eq_false.mp
                      (Bool.not_eq_true _ ▸ hany) b hb
                    simpa using this
                  repeat' split
                  all_goals {
                    refine List.pairwise_append.mpr
                      ⟨huniq, List.pairwise_singleton _ _, ?_⟩
                    intro x hx b hb
                    rw [List.mem_singleton] at hb
                    subst hb
                    show x.dedupeKey ≠ input.jobId ++ "_" ++ tk.uid
                    exact hnew x hx }

/-- C1 witness: the amended statement applied to the duplicate-submission
store (first conjunct) and to the same call's output state (second
conjunct). -/
theorem applyToJob_duplicate_rejected_witness :
    applyToJob stDup (some seekerTk)
      { jobId := "j1", resumePath := "resumes/s1.pdf", coverLetter := "" }
      1000 "a3" = (stDup, Except.error ErrCode.internal)
    ∧ dedupeUnique (applyToJob stDup (some seekerTk)
      { jobId := "j1", resumePath := "resumes/s1.pdf", coverLetter := "" }
      1000 "a3").1 :=
  ⟨applyToJob_duplicate_rejected.1 stDup seekerTk
      { jobId := "j1", resumePath := "resumes/s1.pdf", coverLetter := "" }
      1000 "a3" (by decide) (by decide) (by decide) (by decide)
      ⟨appA1, by decide, by decide⟩,
   applyToJob_duplicate_rejected.2 stDup (some seekerTk)
      { jobId := "j1", resumePath := "resumes/s1.pdf", coverLetter := "" }
      1000 "a3" (by decide)⟩

/-- C3 counterexample: the stored job `j3` is `rejected`, yet an admin
`approveJob` call succeeds and sets it to `approved` — the transition
rejected → approved is reachable, refuting the claimed state machine. -/
theorem approveJob_rejected_counterexample :
    findJob stRejectedJob "j3" = some jobJ3
    ∧ jobJ3.status = "rejected"
    ∧ (approveJob stRejectedJob (some adminTk) "j3" 50).2 = Except.ok ()
    ∧ (findJob (approveJob stRejectedJob (some adminTk) "j3" 50).1 "j3").map
        Job.status = some "approved" := by decide

/-- C3 (amended): admin `approveJob` on any existing job sets its status
to `approved` regardless of the prior status (so rejected → approved and
expired → approved are reachable); the expiry sweep touches a job only
to turn an approved one with `lastDate < now` into `expired`, and
re-running the sweep is a no-op (it is idempotent). -/
theorem approveJob_unconditional_and_sweep_idempotent :
    (∀ st tk jobId now j, tk.role = "admin" → jobId ≠ "" →
       findJob st jobId = some j →
       (findJob (approveJob st (some tk) jobId now).1 jobId).map Job.status =
         some "approved")
    ∧ (∀ st now j, j ∈ st.jobs →
       j ∈ (expireJobs st now).jobs ∨
       (j.status = "approved" ∧ j.lastDate < now ∧
         { j with status := "expired", updatedAt := now } ∈
           (expireJobs st now).jobs))
    ∧ (∀ st now, expireJobs (expireJobs st now) now = expireJobs st now) := by
  refine ⟨?_, ?_, ?_⟩
  · intro st tk jobId now j hadmin hjid hfind
    have h1 : ¬ tk.role ≠ "admin" := by simp [hadmin]
    simp only [approveJob, if_neg h1, if_neg hjid, hfind]
    have hres := find?_mapIf Job.id
      (fun x => { x with status := "approved", approvedBy := some tk.uid
                         approvedAt := some now, updatedAt := now })
      (fun _ => rfl) st.jobs jobId j hfind
    by_cases hc : j.companyId = "" ∨ j.posterUid = ""
    · rw [if_pos hc]
      unfold findJob
      dsimp only
      rw [hres]
      rfl
    · rw [if_neg hc]
      unfold findJob
      dsimp only
      rw [hres]
      rfl
  · intro st now j hj
    unfold expireJobs
    by_cases hx : j.status = "approved" ∧ j.lastDate < now
    · exact Or.inr ⟨hx.1, hx.2,
        List.mem_map.mpr ⟨j, hj, by rw [if_pos hx]⟩⟩
    · exact Or.inl (List.mem_map.mpr ⟨j, hj, by rw [if_neg hx]⟩)
  · intro st now
    unfold expireJobs
    dsimp only
    rw [List.map_map]
    congr 1
    apply List.map_congr_left
    intro a _
    simp only [Function.comp_apply]
    by_cases hx : a.status = "approved" ∧ a.lastDate < now
    · rw [if_pos hx, if_neg]
      simp
    · rw [if_neg hx, if_neg hx]

/-- C3 witness: the first conjunct applied to the rejected job `j3`. -/
theorem approveJob_unconditional_witness :
    (findJob (approveJob stRejectedJob (some adminTk) "j3" 60).1 "j3").map
      Job.status = some "approved" :=
  approveJob_unconditional_and_sweep_idempotent.1 stRejectedJob adminTk "j3"
    60 jobJ3 (by decide) (by decide) (by decide)

/-- C4 counterexample: the stored company `c2` is `rejected`, yet an
admin `approveEmployerUpgrade` call succeeds and sets it to `approved` —
rejected is not terminal, refuting the claim. -/
theorem approveCompany_rejected_counterexample :
    findCompany stRejectedCo "c2" = some companyC2
    ∧ companyC2.status = "rejected"
    ∧ (approveEmployerUpgrade stRejectedCo (some adminTk) "e1" "c2" 50).2 =
        Except.ok ()
    ∧ (findCompany (approveEmployerUpgrade stRejectedCo (some adminTk) "e1"
        "c2" 50).1 "c2").map Company.status = some "approved" := by decide

/-- C4 (amended): admin `approveEmployerUpgrade` on any existing company
sets its status to `approved` regardless of the prior status — on a
rejected or already-approved company the call is not rejected, and
rejected → approved is reachable (on an already-approved company the
status value is re-written unchanged). -/
theorem approveEmployerUpgrade_unconditional (st : Store) (tk : AuthToken)
    (uid companyId : String) (now : Nat) (c : Company)
    (hadmin : tk.role = "admin") (huid : uid ≠ "") (hcid : companyId ≠ "")
    (hfind : findCompany st companyId = some c) :
    (findCompany (approveEmployerUpgrade st (some tk) uid companyId now).1
      companyId).map Company.status = some "approved" := by
  have h1 : ¬ tk.role ≠ "admin" := by simp [hadmin]
  have harg : ¬ (uid = "" ∨ companyId = "") := by simp [huid, hcid]
  simp only [approveEmployerUpgrade, if_neg h1, if_neg harg, hfind]
  have hres := find?_mapIf Company.id
    (fun x => { x with status := "approved", updatedAt := now })
    (fun _ => rfl) st.companies companyId c hfind
  split
  · unfold findCompany
    dsimp only
    rw [hres]
    rfl
  · unfold findCompany
    dsimp only
    rw [hres]
    rfl

/-- C4 witness: the amended statement applied to the rejected company
`c2`. -/
theorem approveEmployerUpgrade_unconditional_witness :
    (findCompany (approveEmployerUpgrade stRejectedCo (some adminTk) "e1"
      "c2" 60).1 "c2").map Company.status = some "approved" :=
  approveEmployerUpgrade_unconditional stRejectedCo adminTk "e1" "c2" 60
    companyC2 (by decide) (by decide) (by decide) (by decide)

/-- Appending one application for `jobId` while incrementing exactly
that job's counter preserves the bookkeeping invariant. -/
theorem countsOk_append_increment (st st1 : Store) (jobId : String)
    (app : Application) (happ : app.jobId = jobId)
    (hjobs : st1.jobs = st.jobs.map (fun j =>
      if j.id = jobId then
        { j with applicationCount := j.applicationCount + 1 }
      else j))
    (happs : st1.applications = st.applications ++ [app])
    (h : countsOk st) : countsOk st1 := by
  intro j' hj'
  rw [hjobs] at hj'
  obtain ⟨j0, hj0, rfl⟩ := List.mem_map.mp hj'
  rw [happs, List.filter_append, List.length_append]
  by_cases hid : j0.id = jobId
  · rw [if_pos hid]
    show j0.applicationCount + 1 = _
    have h1 : (List.filter (fun a : Application =>
        a.jobId == ({ j0 with applicationCount := j0.applicationCount + 1 }
          : Job).id) [app]).length = 1 := by
      show (List.filter (fun a : Application => a.jobId == j0.id) [app]).length = 1
      simp [List.filter, happ, hid]
    rw [h1]
    have h2 : List.filter (fun a : Application =>
        a.jobId == ({ j0 with applicationCount := j0.applicationCount + 1 }
          : Job).id) st.applications
        = List.filter (fun a : Application => a.jobId == j0.id)
            st.applications := rfl
    rw [h2, ← h j0 hj0]
  · rw [if_neg hid]
    have h0 : (List.filter (fun a : Application => a.jobId == j0.id)
        [app]).length = 0 := by
      simp only [List.filter, List.length_nil]
      have : (app.jobId == j0.id) = false := by
        rw [happ]
        exact beq_eq_false_iff_ne.mpr (fun hcon => hid hcon.symm)
      rw [this]
      rfl
    rw [h0, Nat.add_zero]
    exact h j0 hj0

/-- Removing a job together with exactly the applications that reference
it (`MemStorage.deleteJob`) preserves the bookkeeping invariant. -/
theorem countsOk_deleteJob (st : Store) (id : String) (h : countsOk st) :
    countsOk (MemStorage.deleteJob st id) := by
  intro j hj
  unfold MemStorage.deleteJob at hj ⊢
  dsimp only at hj ⊢
  obtain ⟨hjmem, hjneq⟩ := List.mem_filter.mp hj
  have hji : j.id ≠ id := by simpa using hjneq
  rw [List.filter_filter]
  have hfun : (fun a : Application =>
      (a.jobId == j.id) && decide (a.jobId ≠ id))
      = fun a : Application => a.jobId == j.id := by
    funext a
    by_cases ha : a.jobId = j.id
    · simp [ha, hji]
    · simp [ha]
  rw [hfun]
  exact h j hjmem

/-- C5 counterexample: the duplicate-scenario store satisfies the
invariant (`j1.applicationCount = 1` with one matching application), but
deleting the seeker `s1` removes their application without decrementing
`j1`'s counter, breaking the claimed always-equality. -/
theorem applicationCount_deleteUser_counterexample :
    countsOk stDup ∧ ¬ countsOk (MemStorage.deleteUser stDup "s1") := by
  decide

/-- C5 (amended): the counter equality is preserved by application
creation (`applyToJob` — every call keeps `countsOk`, and a successful
one increments the applied job's counter by exactly 1) and by
`MemStorage.deleteJob` (which cascades to the job's applications); it is
NOT preserved by `MemStorage.deleteUser`, which deletes the user's
applications without decrementing the referenced jobs' counters. -/
theorem applicationCount_invariant :
    (∀ st ctx input now newAppId, countsOk st →
       countsOk (applyToJob st ctx input now newAppId).1)
    ∧ (∀ st tk input now newAppId j,
       findJob st input.jobId = some j →
       (applyToJob st (some tk) input now newAppId).2 = Except.ok newAppId →
       (findJob (applyToJob st (some tk) input now newAppId).1
         input.jobId).map Job.applicationCount =
           some (j.applicationCount + 1))
    ∧ (∀ st id, countsOk st → countsOk (MemStorage.deleteJob st id)) := by
  refine ⟨?_, ?_, fun st id h => countsOk_deleteJob st id h⟩
  · intro st ctx input now newAppId h
    cases ctx with
    | none => exact h
    | some tk =>
      simp only [applyToJob]
      by_cases hauth : ¬ (tk.emailVerified = true ∧ tk.role = "seeker")
      · rw [if_pos hauth]; exact h
      · rw [if_neg hauth]
        by_cases harg : input.jobId = "" ∨ input.resumePath = ""
        · rw [if_pos harg]; exact h
        · rw [if_neg harg]
          cases hfind : findJob st input.jobId with
          | none => exact h
          | some j =>
            dsimp only
            by_cases hs : j.status ≠ "approved"
            · rw [if_pos hs]; exact h
            · rw [if_neg hs]
              by_cases hlate : j.lastDate < now
              · rw [if_pos hlate]; exact h
              · rw [if_neg hlate]
                by_cases hany : (st.applications.any
                    (fun a => a.dedupeKey = input.jobId ++ "_" ++ tk.uid))
                    = true
                · rw [if_pos hany]; exact h
                · rw [if_neg hany]
                  repeat' split
                  all_goals
                    exact countsOk_append_increment st _ input.jobId _
                      rfl rfl rfl h
  · intro st tk input now newAppId j hfind hok
    simp only [applyToJob] at hok ⊢
    by_cases hauth : ¬ (tk.emailVerified = true ∧ tk.role = "seeker")
    · rw [if_pos hauth] at hok; simp at hok
    · rw [if_neg hauth] at hok ⊢
      by_cases harg : input.jobId = "" ∨ input.resumePath = ""
      · rw [if_pos harg] at hok; simp at hok
      · rw [if_neg harg] at hok ⊢
        rw [hfind] at hok ⊢
        dsimp only at hok ⊢
        by_cases hs : j.status ≠ "approved"
        · rw [if_pos hs] at hok; simp at hok
        · rw [if_neg hs] at hok ⊢
          by_cases hlate : j.lastDate < now
          · rw [if_pos hlate] at hok; simp at hok
          · rw [if_neg hlate] at hok ⊢
            by_cases hany : (st.applications.any
                (fun a => a.dedupeKey = input.jobId ++ "_" ++ tk.uid)) = true
            · rw [if_pos hany] at hok; simp at hok
            · rw [if_neg hany] at hok ⊢
              have hres := find?_mapIf Job.id
                (fun x => { x with
                  applicationCount := x.applicationCount + 1 })
                (fun _ => rfl) st.jobs input.jobId j hfind
              split
              · unfold findJob
                dsimp only
                rw [hres]
                rfl
              · unfold findJob
                dsimp only
                rw [hres]
                rfl

/-- C5 witness: the amended statement applied to a fresh successful
application (both creation conjuncts) and to deleting job `j1` from the
duplicate store (the deleteJob conjunct). -/
theorem applicationCount_invariant_witness :
    countsOk (applyToJob stPast (some seekerTk)
      { jobId := "j2", resumePath := "resumes/s1.pdf", coverLetter := "" }
      100 "a7").1
    ∧ (findJob (applyToJob stPast (some seekerTk)
      { jobId := "j2", resumePath := "resumes/s1.pdf", coverLetter := "" }
      100 "a7").1 "j2").map Job.applicationCount =
        some (jobJ2.applicationCount + 1)
    ∧ countsOk (MemStorage.deleteJob stDup "j1") :=
  ⟨applicationCount_invariant.1 stPast (some seekerTk)
    { jobId := "j2", resumePath := "resumes/s1.pdf", coverLetter := "" }
    100 "a7" (by decide),
   applicationCount_invariant.2.1 stPast seekerTk
    { jobId := "j2", resumePath := "resumes/s1.pdf", coverLetter := "" }
    100 "a7" jobJ2 (by decide) (by decide),
   applicationCount_invariant.2.2 stDup "j1" (by decide)⟩

/-- For the C6 filter set the pipeline is exactly: restrict to approved,
restrict to department Mathematics, stable-sort by ascending
`lastDate`. -/
theorem searchPipeline_f6_eq (st : Store) (now : Nat) :
    searchPipeline st f6 now = List.insertionSort deadlineLe
      ((st.jobs.filter (fun j => j.status == "approved")).filter
        (fun j => j.department == "Mathematics")) := rfl

/-- A returned page is a sublist of the pipeline. -/
theorem searchJobs_items_sublist (st : Store) (f : SearchFilters)
    (page limit now : Nat) :
    (MemStorage.searchJobs st f page limit now).items.Sublist
      (searchPipeline st f now) :=
  (List.take_sublist _ _).trans (List.drop_sublist _ _)

/-- Pages 1 and 2 at size 20 concatenate to the first 40 pipeline
entries. -/
theorem searchJobs_pages_concat (st : Store) (f : SearchFilters) (now : Nat) :
    (MemStorage.searchJobs st f 1 20 now).items ++
      (MemStorage.searchJobs st f 2 20 now).items =
        (searchPipeline st f now).take 40 := by
  show ((searchPipeline st f now).drop 0).take 20 ++
    ((searchPipeline st f now).drop 20).take 20 = _
  rw [List.drop_zero, ← List.take_add]

/-- C6 counterexample: with 41 matching jobs, pages 1 and 2 do NOT cover
the ordered result set — the 41st job is in the pipeline but in neither
page, refuting the claimed coverage. -/
theorem searchJobs_two_pages_not_covering :
    (searchPipeline st41 f6 0).length = 41
    ∧ mathJob 40 ∈ searchPipeline st41 f6 0
    ∧ mathJob 40 ∉ ((MemStorage.searchJobs st41 f6 1 20 0).items ++
        (MemStorage.searchJobs st41 f6 2 20 0).items) := by decide

/-- C6 (amended): with filters department Mathematics / sortBy deadline,
every returned page holds only approved Mathematics jobs in ascending
`lastDate` order; pages 1 and 2 at size 20 are contiguous slices
concatenating to the first 40 entries of the ordered result set —
disjoint whenever the result set has no duplicate records — and they
cover the whole set iff it has at most 40 entries. -/
theorem searchJobs_math_deadline :
    (∀ st page limit now j,
       j ∈ (MemStorage.searchJobs st f6 page limit now).items →
       j.status = "approved" ∧ j.department = "Mathematics")
    ∧ (∀ st page limit now,
       ((MemStorage.searchJobs st f6 page limit now).items).Pairwise
         (fun a b => a.lastDate ≤ b.lastDate))
    ∧ (∀ st now,
       (MemStorage.searchJobs st f6 1 20 now).items ++
         (MemStorage.searchJobs st f6 2 20 now).items =
           (searchPipeline st f6 now).take 40)
    ∧ (∀ st now, (searchPipeline st f6 now).length ≤ 40 →
       (MemStorage.searchJobs st f6 1 20 now).items ++
         (MemStorage.searchJobs st f6 2 20 now).items =
           searchPipeline st f6 now)
    ∧ (∀ st now, (searchPipeline st f6 now).Nodup →
       ∀ j ∈ (MemStorage.searchJobs st f6 1 20 now).items,
         j ∉ (MemStorage.searchJobs st f6 2 20 now).items) := by
  refine ⟨?_, ?_, fun st now => searchJobs_pages_concat st f6 now, ?_, ?_⟩
  · intro st page limit now j hj
    have hpipe : j ∈ searchPipeline st f6 now :=
      (searchJobs_items_sublist st f6 page limit now).subset hj
    rw [searchPipeline_f6_eq] at hpipe
    have hmem := (List.perm_insertionSort deadlineLe _).subset hpipe
    obtain ⟨hmem1, hdept⟩ := List.mem_filter.mp hmem
    obtain ⟨_, hstat⟩ := List.mem_filter.mp hmem1
    exact ⟨by simpa using hstat, by simpa using hdept⟩
  · intro st page limit now
    have hsorted : List.Pairwise deadlineLe (searchPipeline st f6 now) := by
      rw [searchPipeline_f6_eq]
      exact List.sorted_insertionSort deadlineLe _
    exact List.Pairwise.sublist (searchJobs_items_sublist st f6 page limit now) hsorted
  · intro st now h40
    rw [searchJobs_pages_concat]
    exact List.take_of_length_le h40
  · intro st now hnd j hj1 hj2
    have hnd40 : ((MemStorage.searchJobs st f6 1 20 now).items ++
        (MemStorage.searchJobs st f6 2 20 now).items).Nodup := by
      rw [searchJobs_pages_concat]
      exact hnd.sublist (List.take_sublist _ _)
    exact (List.nodup_append.mp hnd40).2.2 hj1 hj2

/-- C6 witness: the amended statement applied to the one-job store
(membership and deadline-order conjuncts) and its pipeline of length 1
(coverage and disjointness conjuncts). -/
theorem searchJobs_math_deadline_witness :
    (jobJ1.status = "approved" ∧ jobJ1.department = "Mathematics")
    ∧ ((MemStorage.searchJobs stDup f6 1 20 0).items ++
        (MemStorage.searchJobs stDup f6 2 20 0).items =
          searchPipeline stDup f6 0)
    ∧ jobJ1 ∉ (MemStorage.searchJobs stDup f6 2 20 0).items :=
  ⟨searchJobs_math_deadline.1 stDup 1 20 0 jobJ1 (by decide),
   searchJobs_math_deadline.2.2.2.1 stDup 0 (by decide),
   searchJobs_math_deadline.2.2.2.2 stDup 0 (by decide) jobJ1 (by decide)⟩

/-- C7 counterexample: the client-side Firestore `searchJobs` violates
the claimed pagination contract — with exactly 20 matching documents and
the default limit 20 it reports `hasMore = true` although the returned
page already holds the whole result set; with 30 matching documents it
reports `total = 20` (the page length) instead of 30; and a requested
limit of 101 returns 101 items, above the claimed 100 cap. -/
theorem clientSearchJobs_pagination_counterexample :
    ((clientSearchJobs docs20 {} 0).hasMore = true
      ∧ (clientSearchJobs docs20 {} 0).items.length =
          (clientPipeline docs20 {} 0).length)
    ∧ ((clientSearchJobs docs30 {} 0).total = 20
      ∧ (clientPipeline docs30 {} 0).length = 30)
    ∧ (clientSearchJobs docs101 { limit := 101 } 0).items.length = 101 := by
  decide

/-- C7 (amended): on the server path (`GET /api/jobs` →
`MemStorage.searchJobs`) the claim holds — the parsed limit defaults to
20 and is capped at 100, at most 100 items are returned, `total` is the
number of records matching the filters, and `hasMore` is true iff the
pipeline extends beyond the returned page; the client-side Firestore
`searchJobs` satisfies none of this (see the counterexample). -/
theorem routeSearchJobs_pagination :
    routeLimit none = 20
    ∧ (∀ raw, routeLimit raw ≤ 100)
    ∧ (∀ st f rawPage rawLimit now,
       (routeSearchJobs st f rawPage rawLimit now).items.length ≤ 100)
    ∧ (∀ st f rawPage rawLimit now,
       (routeSearchJobs st f rawPage rawLimit now).total =
         (searchPipeline st f now).length)
    ∧ (∀ st f rawPage rawLimit now,
       ((routeSearchJobs st f rawPage rawLimit now).hasMore = true ↔
        (searchPipeline st f now).drop
          ((routePage rawPage - 1) * routeLimit rawLimit +
            (routeSearchJobs st f rawPage rawLimit now).items.length) ≠ [])) := by
  refine ⟨rfl, ?_, ?_, fun _ _ _ _ _ => rfl, ?_⟩
  · intro raw
    exact Nat.min_le_right _ 100
  · intro st f rawPage rawLimit now
    have h1 : (routeSearchJobs st f rawPage rawLimit now).items.length ≤
        routeLimit rawLimit := List.length_take_le _ _
    exact le_trans h1 (Nat.min_le_right _ 100)
  · intro st f rawPage rawLimit now
    have hs : (routeSearchJobs st f rawPage rawLimit now).hasMore =
        decide ((routePage rawPage - 1) * routeLimit rawLimit +
          routeLimit rawLimit < (searchPipeline st f now).length) := rfl
    have hitems : (routeSearchJobs st f rawPage rawLimit now).items.length =
        min (routeLimit rawLimit) ((searchPipeline st f now).length -
          (routePage rawPage - 1) * routeLimit rawLimit) := by
      show (((searchPipeline st f now).drop _).take _).length = _
      rw [List.length_take, List.length_drop]
    rw [hs, hitems, decide_eq_true_iff, Ne, List.drop_eq_nil_iff]
    rcases Nat.le_total (routeLimit rawLimit)
        ((searchPipeline st f now).length -
          (routePage rawPage - 1) * routeLimit rawLimit) with hm | hm
    · rw [Nat.min_eq_left hm]
      omega
    · rw [Nat.min_eq_right hm]
      omega

end EduHire
